import Mathlib

/-
Verification development for the nextbite recommendation backend
(netlify/functions/recommendations.js, newer handler revision).

The JavaScript source is shallowly embedded as executable Lean
definitions.  Network calls are modelled by explicit outcome values
passed in as parameters (an outcome is either an exception raised at
any point of the fetch/parse of that call, or an HTTP status code
together with the decoded payload).  JavaScript numbers that only flow
through template strings are modelled as naturals; JSON values are
modelled by an inductive type with numbers carried as their source
lexemes.  JS string falsiness (undefined or the empty string) is
modelled by an Option String being none or some "".
-/

namespace Nextbite

/-- JSON values, as produced by JSON.parse.  A number is kept as its
source lexeme; object fields are kept in source order (lookup takes the
last duplicate, as JSON.parse does). -/
inductive Json where
  | null : Json
  | bool : Bool → Json
  | num : String → Json
  | str : String → Json
  | arr : List Json → Json
  | obj : List (String × Json) → Json

/-- The double-quote character. -/
def quoteChar : Char := Char.ofNat 34

/-- The backslash character. -/
def backslashChar : Char := Char.ofNat 92

/-- JSON whitespace accepted by JSON.parse: space, tab, newline, carriage return. -/
def jsonWs (c : Char) : Bool := c = ' ' || c = Char.ofNat 9 || c = Char.ofNat 10 || c = Char.ofNat 13

/-- Drop leading JSON whitespace. -/
def skipWs : List Char → List Char
  | [] => []
  | c :: cs => if jsonWs c then skipWs cs else c :: cs

/-- Value of a hexadecimal digit character. -/
def hexVal (c : Char) : Option Nat :=
  let n := c.toNat
  if 48 ≤ n && n ≤ 57 then some (n - 48)
  else if 97 ≤ n && n ≤ 102 then some (n - 87)
  else if 65 ≤ n && n ≤ 70 then some (n - 55)
  else none

/-- Single-character JSON string escapes. -/
def escChar (e : Char) : Option Char :=
  if e = quoteChar then some quoteChar
  else if e = backslashChar then some backslashChar
  else if e = '/' then some '/'
  else if e = 'b' then some (Char.ofNat 8)
  else if e = 'f' then some (Char.ofNat 12)
  else if e = 'n' then some (Char.ofNat 10)
  else if e = 'r' then some (Char.ofNat 13)
  else if e = 't' then some (Char.ofNat 9)
  else none

/-- Scan a JSON string body (after the opening quote): returns the decoded
characters and the input remaining after the closing quote.  A lone UTF-16
surrogate from a \u escape, which Lean's Char cannot carry, is replaced by
U+FFFD.  The fuel only bounds recursion depth; callers supply at least the
input length plus one, which is always enough since every step consumes
at least one character. -/
def strLoopF : Nat → List Char → Option (List Char × List Char)
  | 0, _ => none
  | _, [] => none
  | fuel + 1, c :: cs =>
    if c = quoteChar then some ([], cs)
    else if c = backslashChar then
      match cs with
      | [] => none
      | e :: cs2 =>
        if e = 'u' then
          match cs2 with
          | a :: b :: c3 :: d :: cs3 =>
            match hexVal a, hexVal b, hexVal c3, hexVal d with
            | some ha, some hb, some hc, some hd =>
              let n := ((ha * 16 + hb) * 16 + hc) * 16 + hd
              if 0xD800 ≤ n ∧ n ≤ 0xDBFF then
                match cs3 with
                | e2 :: u2 :: a2 :: b2 :: c4 :: d2 :: cs4 =>
                  if e2 = backslashChar ∧ u2 = 'u' then
                    match hexVal a2, hexVal b2, hexVal c4, hexVal d2 with
                    | some ha2, some hb2, some hc2, some hd2 =>
                      let n2 := ((ha2 * 16 + hb2) * 16 + hc2) * 16 + hd2
                      if 0xDC00 ≤ n2 ∧ n2 ≤ 0xDFFF then
                        (strLoopF fuel cs4).map (fun p =>
                          (Char.ofNat (0x10000 + (n - 0xD800) * 0x400 + (n2 - 0xDC00)) :: p.1, p.2))
                      else
                        (strLoopF fuel (e2 :: u2 :: a2 :: b2 :: c4 :: d2 :: cs4)).map
                          (fun p => (Char.ofNat 0xFFFD :: p.1, p.2))
                    | _, _, _, _ =>
                      (strLoopF fuel (e2 :: u2 :: a2 :: b2 :: c4 :: d2 :: cs4)).map
                        (fun p => (Char.ofNat 0xFFFD :: p.1, p.2))
                  else
                    (strLoopF fuel (e2 :: u2 :: a2 :: b2 :: c4 :: d2 :: cs4)).map
                      (fun p => (Char.ofNat 0xFFFD :: p.1, p.2))
                | _ => (strLoopF fuel cs3).map (fun p => (Char.ofNat 0xFFFD :: p.1, p.2))
              else if 0xDC00 ≤ n ∧ n ≤ 0xDFFF then
                (strLoopF fuel cs3).map (fun p => (Char.ofNat 0xFFFD :: p.1, p.2))
              else
                (strLoopF fuel cs3).map (fun p => (Char.ofNat n :: p.1, p.2))
            | _, _, _, _ => none
          | _ => none
        else
          match escChar e with
          | some ch => (strLoopF fuel cs2).map (fun p => (ch :: p.1, p.2))
          | none => none
    else if c.toNat < 0x20 then none
    else (strLoopF fuel cs).map (fun p => (c :: p.1, p.2))

/-- JSON string body scan with enough fuel for its input. -/
def strLoop (cs : List Char) : Option (List Char × List Char) :=
  strLoopF (cs.length + 1) cs

/-- Longest digit span at the head of the input. -/
def spanDigits : List Char → (List Char × List Char)
  | [] => ([], [])
  | c :: cs =>
    if c.isDigit then
      let p := spanDigits cs
      (c :: p.1, p.2)
    else ([], c :: cs)

/-- Integer part of a JSON number: a single 0, or a nonzero digit followed
by digits. -/
def parseIntPart : List Char → Option (List Char × List Char)
  | [] => none
  | c :: cs =>
    if c = '0' then some (['0'], cs)
    else if c.isDigit then
      let p := spanDigits cs
      some (c :: p.1, p.2)
    else none

/-- Optional fractional part of a JSON number. -/
def parseFracPart (cs : List Char) : Option (List Char × List Char) :=
  match cs with
  | '.' :: cs2 =>
    match spanDigits cs2 with
    | ([], _) => none
    | (d, r) => some ('.' :: d, r)
  | _ => some ([], cs)

/-- Optional exponent part of a JSON number. -/
def parseExpPart (cs : List Char) : Option (List Char × List Char) :=
  match cs with
  | c :: cs2 =>
    if c = 'e' || c = 'E' then
      match cs2 with
      | s :: cs3 =>
        if s = '+' || s = '-' then
          match spanDigits cs3 with
          | ([], _) => none
          | (d, r) => some (c :: s :: d, r)
        else
          match spanDigits (s :: cs3) with
          | ([], _) => none
          | (d, r) => some (c :: d, r)
      | [] => none
    else some ([], c :: cs2)
  | [] => some ([], [])

/-- A JSON number lexeme at the head of the input. -/
def parseNum (cs : List Char) : Option (List Char × List Char) :=
  let sp : List Char × List Char :=
    match cs with
    | '-' :: r => (['-'], r)
    | r => ([], r)
  match parseIntPart sp.2 with
  | none => none
  | some (ip, r1) =>
    match parseFracPart r1 with
    | none => none
    | some (fp, r2) =>
      match parseExpPart r2 with
      | none => none
      | some (ep, r3) => some (sp.1 ++ ip ++ fp ++ ep, r3)

mutual

/-- Fuel-indexed recursive-descent parser for one JSON value.  The fuel
only bounds recursion depth; parseJson supplies enough for any input. -/
def parseVal : Nat → List Char → Option (Json × List Char)
  | 0, _ => none
  | fuel + 1, cs =>
    match skipWs cs with
    | [] => none
    | c :: rest =>
      if c = '[' then
        match skipWs rest with
        | ']' :: r2 => some (.arr [], r2)
        | r2 => (parseItems fuel r2).map (fun p => (.arr p.1, p.2))
      else if c = '{' then
        match skipWs rest with
        | '}' :: r2 => some (.obj [], r2)
        | r2 => (parseFields fuel r2).map (fun p => (.obj p.1, p.2))
      else if c = quoteChar then
        (strLoop rest).map (fun p => (.str (String.mk p.1), p.2))
      else if c = 't' then
        match rest with
        | 'r' :: 'u' :: 'e' :: r => some (.bool true, r)
        | _ => none
      else if c = 'f' then
        match rest with
        | 'a' :: 'l' :: 's' :: 'e' :: r => some (.bool false, r)
        | _ => none
      else if c = 'n' then
        match rest with
        | 'u' :: 'l' :: 'l' :: r => some (.null, r)
        | _ => none
      else
        (parseNum (c :: rest)).map (fun p => (.num (String.mk p.1), p.2))

/-- Items of a non-empty JSON array, up to and including the closing bracket. -/
def parseItems : Nat → List Char → Option (List Json × List Char)
  | 0, _ => none
  | fuel + 1, cs =>
    match parseVal fuel cs with
    | none => none
    | some (v, r) =>
      match skipWs r with
      | ',' :: r2 => (parseItems fuel r2).map (fun p => (v :: p.1, p.2))
      | ']' :: r2 => some ([v], r2)
      | _ => none

/-- Fields of a non-empty JSON object, up to and including the closing brace. -/
def parseFields : Nat → List Char → Option (List (String × Json) × List Char)
  | 0, _ => none
  | fuel + 1, cs =>
    match skipWs cs with
    | c :: r =>
      if c = quoteChar then
        match strLoop r with
        | none => none
        | some (key, r2) =>
          match skipWs r2 with
          | ':' :: r3 =>
            match parseVal fuel r3 with
            | none => none
            | some (v, r4) =>
              match skipWs r4 with
              | ',' :: r5 => (parseFields fuel r5).map (fun p => ((String.mk key, v) :: p.1, p.2))
              | '}' :: r5 => some ([(String.mk key, v)], r5)
              | _ => none
          | _ => none
      else none
    | [] => none

end

/-- JSON.parse: parse one value and require only whitespace after it;
none models a thrown SyntaxError. -/
def parseJson (s : String) : Option Json :=
  match parseVal (2 * s.length + 2) s.data with
  | some (v, rest) => if skipWs rest = [] then some v else none
  | none => none

/-- Suffix of the input starting at the first occurrence of a bracket
that opens an array. -/
def fromFirstBracket : List Char → Option (List Char)
  | [] => none
  | c :: cs => if c = '[' then some (c :: cs) else fromFirstBracket cs

/-- Suffix of the input starting at the first closing bracket. -/
def dropUntilClose : List Char → Option (List Char)
  | [] => none
  | c :: cs => if c = ']' then some (c :: cs) else dropUntilClose cs

/-- The span matched by the regular expression /\[[\s\S]*\]/ on the
given characters: from the first opening bracket to the last closing
bracket after it, none when there is no such pair. -/
def extractList (cs : List Char) : Option (List Char) :=
  match fromFirstBracket cs with
  | none => none
  | some suffixPart =>
    match dropUntilClose suffixPart.reverse with
    | none => none
    | some revSpan => some revSpan.reverse

/-- text.match(/\[[\s\S]*\]/), returning the matched substring. -/
def extractArr (s : String) : Option String :=
  (extractList s.data).map String.mk

/-- Truthiness of an optional JS string: undefined and "" are falsy. -/
def truthyStr : Option String → Bool
  | none => false
  | some s => s ≠ ""

/-- Mantissa digits of a JSON number lexeme are all zero, i.e. the number
is falsy in JS. -/
def numLexIsZero (lex : String) : Bool :=
  (lex.data.takeWhile (fun c => c ≠ 'e' && c ≠ 'E')).all
    (fun c => c = '0' || c = '-' || c = '.')

/-- JS truthiness of a JSON value. -/
def truthyJson : Json → Bool
  | .null => false
  | .bool b => b
  | .num lex => !(numLexIsZero lex)
  | .str s => s ≠ ""
  | .arr _ => true
  | .obj _ => true

/-- Field lookup on a parsed JSON object; JSON.parse keeps the last
duplicate key, so the last binding wins. -/
def lookupField (fields : List (String × Json)) (key : String) : Option Json :=
  (fields.reverse.find? (fun kv => kv.1 = key)).map (fun kv => kv.2)

/-- The mock recommendation table of the newer handler revision
(getMockRecommendations), encoded as lists of parsed JSON objects with
the exact source literals. -/
def mockCoffee : List Json :=
  [.obj [("name", .str "Starbucks"), ("address", .str "Multiple locations"),
         ("description", .str "Cozy corner cafe with artisanal coffee and fresh pastries. Perfect for your caffeine fix!"),
         ("distance", .str "5 min walk"), ("hours", .str "Open now")],
   .obj [("name", .str "Peet\x27s Coffee"), ("address", .str "Multiple locations"),
         ("description", .str "Known for bold, rich roasts and excellent espresso drinks."),
         ("distance", .str "8 min walk"), ("hours", .str "Open now")]]

/-- Mock entries for the quick-bite mood, also the default list. -/
def mockQuickBite : List Json :=
  [.obj [("name", .str "Chipotle"), ("address", .str "Multiple locations"),
         ("description", .str "Fast-casual spot with delicious burritos and bowls ready in minutes."),
         ("distance", .str "3 min walk"), ("hours", .str "Open now")],
   .obj [("name", .str "Panera Bread"), ("address", .str "Multiple locations"),
         ("description", .str "Quick service restaurant with fresh sandwiches and soups."),
         ("distance", .str "5 min walk"), ("hours", .str "Open now")]]

/-- Mock entries for the healthy mood. -/
def mockHealthy : List Json :=
  [.obj [("name", .str "Sweetgreen"), ("address", .str "Multiple locations"),
         ("description", .str "Farm-to-table salads and grain bowls for the health-conscious."),
         ("distance", .str "7 min walk"), ("hours", .str "Open now")],
   .obj [("name", .str "Panera Bread"), ("address", .str "Multiple locations"),
         ("description", .str "Nutrient-packed meals with healthy options available."),
         ("distance", .str "10 min walk"), ("hours", .str "Open now")]]

/-- Mock entries for the comfort mood. -/
def mockComfort : List Json :=
  [.obj [("name", .str "Applebee\x27s"), ("address", .str "Multiple locations"),
         ("description", .str "Hearty comfort food classics and American favorites."),
         ("distance", .str "8 min drive"), ("hours", .str "Open now")],
   .obj [("name", .str "Chili\x27s"), ("address", .str "Multiple locations"),
         ("description", .str "Warm, inviting spot serving up comfort favorites."),
         ("distance", .str "12 min drive"), ("hours", .str "Open now")]]

/-- Mock entries for the date-night mood. -/
def mockDateNight : List Json :=
  [.obj [("name", .str "The Cheesecake Factory"), ("address", .str "Multiple locations"),
         ("description", .str "Upscale casual dining with an extensive menu perfect for date night."),
         ("distance", .str "10 min drive"), ("hours", .str "Open now")],
   .obj [("name", .str "Olive Garden"), ("address", .str "Multiple locations"),
         ("description", .str "Italian classics in a romantic atmosphere."),
         ("distance", .str "15 min drive"), ("hours", .str "Open now")]]

/-- Mock entries for the adventure mood. -/
def mockAdventure : List Json :=
  [.obj [("name", .str "P.F. Chang\x27s"), ("address", .str "Multiple locations"),
         ("description", .str "Explore bold Asian-inspired flavors and creative dishes."),
         ("distance", .str "12 min drive"), ("hours", .str "Open now")],
   .obj [("name", .str "Benihana"), ("address", .str "Multiple locations"),
         ("description", .str "Japanese hibachi experience with entertaining chefs."),
         ("distance", .str "15 min drive"), ("hours", .str "Open now")]]

/-- getMockRecommendations: mockData[mood] || mockData["quick-bite"]. -/
def getMockRecommendations (mood : String) : List Json :=
  if mood = "coffee" then mockCoffee
  else if mood = "quick-bite" then mockQuickBite
  else if mood = "healthy" then mockHealthy
  else if mood = "comfort" then mockComfort
  else if mood = "date-night" then mockDateNight
  else if mood = "adventure" then mockAdventure
  else mockQuickBite

/-- The mood keys present in the mock table (and in the mood lookup
tables of the providers). -/
def mockMoods : List String :=
  ["coffee", "quick-bite", "healthy", "comfort", "date-night", "adventure"]

/-- A Foursquare location object as used by formatAddress; each field is
absent (undefined) or a string. -/
structure LocObj where
  address : Option String
  locality : Option String
  region : Option String
  postcode : Option String
deriving Repr, DecidableEq

/-- Array.prototype.join with separator ", " as used in formatAddress. -/
def joinComma : List String → String
  | [] => ""
  | [s] => s
  | s :: rest => s ++ ", " ++ joinComma rest

/-- The parts array built by formatAddress: each truthy field of the
location, pushed in source order. -/
def addressParts (l : LocObj) : List String :=
  (match l.address with | some s => if s ≠ "" then [s] else [] | none => []) ++
  (match l.locality with | some s => if s ≠ "" then [s] else [] | none => []) ++
  (match l.region with | some s => if s ≠ "" then [s] else [] | none => []) ++
  (match l.postcode with | some s => if s ≠ "" then [s] else [] | none => [])

/-- formatAddress: null for a missing location, otherwise the comma join
of the truthy fields, with an empty join replaced by null. -/
def formatAddress (loc : Option LocObj) : Option String :=
  match loc with
  | none => none
  | some l =>
    let joined := joinComma (addressParts l)
    if joined = "" then none else some joined

/-- One entry of hours.regular: a weekday index and open/close times
(named openTime/closeTime here because `open` is a Lean keyword). -/
structure HoursEntry where
  day : Nat
  openTime : String
  closeTime : String
deriving Repr, DecidableEq

/-- A Foursquare hours object as used by formatHours; openNow models the
open_now flag (absent, false or true). -/
structure HoursVal where
  display : Option String
  regular : Option (List HoursEntry)
  openNow : Option Bool
deriving Repr, DecidableEq

/-- The days array of formatHours. -/
def weekdayNames : List String :=
  ["Sunday", "Monday", "Tuesday", "Wednesday", "Thursday", "Friday", "Saturday"]

/-- hours.regular?.find(h => days[h.day] === today): the first schedule
entry whose weekday name is today. -/
def todaysEntry (today : String) (hv : HoursVal) : Option HoursEntry :=
  match hv.regular with
  | none => none
  | some l => l.find? (fun h => weekdayNames.get? h.day = some today)

/-- formatHours.  `today` is the weekday name the code reads from the
system clock; it is passed explicitly here. -/
def formatHours (today : String) (hours : Option HoursVal) : Option String :=
  match hours with
  | none => none
  | some hv =>
    if truthyStr hv.display = false then none
    else
      match todaysEntry today hv with
      | some h => some ("Open " ++ h.openTime ++ "-" ++ h.closeTime)
      | none => if hv.openNow = some true then some "Open now" else some "Check hours"

/-- Does the needle occur at the head of the haystack? -/
def startsWithChars : List Char → List Char → Bool
  | _, [] => true
  | [], _ :: _ => false
  | c :: cs, d :: ds => c = d && startsWithChars cs ds

/-- Does the needle occur contiguously anywhere in the haystack? -/
def hasSubList (needle : List Char) : List Char → Bool
  | [] => needle.isEmpty
  | c :: cs => startsWithChars (c :: cs) needle || hasSubList needle cs

/-- String.prototype.includes. -/
def stringIncludes (hay needle : String) : Bool := hasSubList needle.data hay.data

/-- String.prototype.toLowerCase (ASCII case folding; the inputs the
code compares are provider names). -/
def lowerStr (s : String) : String := String.mk (s.data.map Char.toLower)

/-- Characters kept verbatim by encodeURIComponent. -/
def isUriUnreserved (c : Char) : Bool :=
  c.isAlpha || c.isDigit || c ∈ "-_.!~*\x27()".data

/-- Uppercase hexadecimal digit. -/
def hexDigitChar (n : Nat) : Char :=
  if n < 10 then Char.ofNat (48 + n) else Char.ofNat (55 + n)

/-- Percent-encoding of one byte. -/
def percentEncodeByte (b : UInt8) : List Char :=
  ['%', hexDigitChar (b.toNat / 16), hexDigitChar (b.toNat % 16)]

/-- encodeURIComponent: unreserved characters kept, all others
percent-encoded per UTF-8 byte. -/
def encodeURIComponent (s : String) : String :=
  String.mk (s.data.foldr
    (fun c acc =>
      (if isUriUnreserved c then [c]
       else (String.utf8EncodeChar c).foldr (fun b a => percentEncodeByte b ++ a) []) ++ acc)
    [])

/-- The moodToQuery table of the newer getPlacesFromFoursquare, with its
|| "restaurant" default. -/
def moodToQuery (mood : String) : String :=
  if mood = "coffee" then "coffee"
  else if mood = "quick-bite" then "fast food"
  else if mood = "healthy" then "healthy food salad"
  else if mood = "comfort" then "comfort food american"
  else if mood = "date-night" then "fine dining romantic"
  else if mood = "adventure" then "unique restaurant"
  else "restaurant"

/-- The moodToCategory table of the newer getPlacesFromFoursquare, with
its || "13000" default. -/
def moodToCategory (mood : String) : String :=
  if mood = "coffee" then "13035"
  else if mood = "quick-bite" then "13145"
  else if mood = "healthy" then "13377"
  else if mood = "comfort" then "13065"
  else if mood = "date-night" then "13003"
  else if mood = "adventure" then "13000"
  else "13000"

/-- The search URL issued by the newer getPlacesFromFoursquare.  The
function receives maxDistance but the URL template does not reference it
(the older revision had a radius parameter; the newer one does not). -/
def searchUrl (location mood : String) (maxDistance : Nat) : String :=
  "https://api.foursquare.com/v3/places/search?query=" ++
    encodeURIComponent (moodToQuery mood) ++
    "&near=" ++ encodeURIComponent location ++
    "&categories=" ++ moodToCategory mood ++
    "&limit=5&sort=RELEVANCE&open_now=true"

/-- response.ok: status in the range 200-299. -/
def isOkStatus (s : Nat) : Bool := 200 ≤ s && s < 300

/-- A place as it appears in the search response results (the fields the
code reads). -/
structure SearchPlace where
  fsq_id : String
  name : String
  location : Option LocObj
  distance : Option Nat
deriving Repr, DecidableEq

/-- Outcome of the places search call: an exception at any point of the
fetch or body decoding, or a status with decoded results
(searchData.results || [] is folded into the list). -/
inductive SearchOutcome where
  | exn : SearchOutcome
  | resp : Nat → List SearchPlace → SearchOutcome

/-- The detail payload for one place (the fields requested by the detail
fetch).  categories carries the name of each category object.  Provider
numbers (rating, price) are modelled as naturals; they only flow through
template strings. -/
structure DetailData where
  name : String
  location : Option LocObj
  hours : Option HoursVal
  rating : Option Nat
  price : Option Nat
  categories : Option (List (Option String))
deriving Repr, DecidableEq

/-- Outcome of one per-place detail fetch. -/
inductive DetailOutcome where
  | exn : DetailOutcome
  | resp : Nat → DetailData → DetailOutcome

/-- A candidate place after lookup.  The detail-fetch failure path builds
an object with only name/address/distance; here the remaining fields are
none, conflating a JS null field with an absent field (no verified
property depends on that difference). -/
structure Place where
  name : String
  address : Option String
  distance : Option String
  rating : Option String
  price : Option String
  hours : Option String
  category : Option String
deriving Repr, DecidableEq

/-- place.distance ? (Math.round(place.distance) + " meters") : null.
A zero distance is falsy in JS. -/
def fmtDistance : Option Nat → Option String
  | none => none
  | some n => if n ≠ 0 then some (toString n ++ " meters") else none

/-- detail.rating ? (rating + "/10") : null. -/
def fmtRating : Option Nat → Option String
  | none => none
  | some n => if n ≠ 0 then some (toString n ++ "/10") else none

/-- detail.price ? "$".repeat(price) : null. -/
def fmtPrice : Option Nat → Option String
  | none => none
  | some n => if n ≠ 0 then some (String.mk (List.replicate n '$')) else none

/-- detail.categories?.[0]?.name || null. -/
def firstCategoryName : Option (List (Option String)) → Option String
  | none => none
  | some l =>
    match l.head? with
    | none => none
    | some none => none
    | some (some n) => if n = "" then none else some n

/-- The coarse entry built when a detail fetch fails or returns a
non-success status. -/
def coarsePlace (sp : SearchPlace) : Place :=
  { name := sp.name, address := formatAddress sp.location,
    distance := fmtDistance sp.distance,
    rating := none, price := none, hours := none, category := none }

/-- Processing of one search result with its detail-fetch outcome: a rich
entry on success, the coarse entry on a non-success status or on an
exception (the inner try/catch). -/
def detailToPlace (today : String) (sp : SearchPlace) : DetailOutcome → Place
  | .exn => coarsePlace sp
  | .resp status d =>
    if isOkStatus status then
      { name := d.name, address := formatAddress d.location,
        distance := fmtDistance sp.distance, rating := fmtRating d.rating,
        price := fmtPrice d.price, hours := formatHours today d.hours,
        category := firstCategoryName d.categories }
    else coarsePlace sp

/-- The result of Places Lookup. -/
structure FoursquareResult where
  places : List Place
  rateLimited : Bool
deriving Repr, DecidableEq

/-- The newer getPlacesFromFoursquare.  `today` is the weekday name used
by formatHours; `search` is the outcome of the search request (whose URL
is searchUrl); `details` gives the outcome of the detail fetch for the
i-th of the up-to-3 sliced results.  Every mapped entry is non-null, so
the source's final filter keeps all of them. -/
def getPlacesFromFoursquare (location mood : String) (maxDistance : Nat) (today : String)
    (search : SearchOutcome) (details : Nat → DetailOutcome) : FoursquareResult :=
  match search with
  | .exn => { places := [], rateLimited := false }
  | .resp status results =>
    if status = 429 || status = 402 then { places := [], rateLimited := true }
    else if !isOkStatus status then { places := [], rateLimited := false }
    else
      { places := (results.take 3).mapIdx (fun i sp => detailToPlace today sp (details i)),
        rateLimited := false }

/-- Outcome of one Gemini generateContent call: an exception at any point
of the fetch or body decoding, or a status together with the extracted
data.candidates?.[0]?.content?.parts?.[0]?.text (none when that chain is
undefined). -/
inductive GeminiOutcome where
  | exn : GeminiOutcome
  | resp : Nat → Option String → GeminiOutcome

/-- The newer getGeminiRecommendations (generate-from-scratch).  The
location, timeAvailable and maxDistance arguments only shape the prompt,
which is abstracted into the provider outcome; `hasGeminiKey` models a
truthy GEMINI_API_KEY.  The extracted bracket span is fed to JSON.parse;
a parse failure is the thrown SyntaxError caught by the outer catch. -/
def getGeminiRecommendations (hasGeminiKey : Bool) (o : GeminiOutcome)
    (location mood : String) (timeAvailable maxDistance : Nat) : Json :=
  if hasGeminiKey = false then .arr (getMockRecommendations mood)
  else
    match o with
    | .exn => .arr (getMockRecommendations mood)
    | .resp status text =>
      if !isOkStatus status then .arr (getMockRecommendations mood)
      else
        match text with
        | none => .arr (getMockRecommendations mood)
        | some t =>
          if t = "" then .arr (getMockRecommendations mood)
          else
            match extractArr t with
            | none => .arr (getMockRecommendations mood)
            | some m =>
              match parseJson m with
              | some v => v
              | none => .arr (getMockRecommendations mood)

/-- A recommendation: a candidate place spread together with a
description ({...place, description}).  The description is kept as the
raw JSON value the code would attach. -/
structure Reco where
  name : String
  address : Option String
  distance : Option String
  rating : Option String
  price : Option String
  hours : Option String
  category : Option String
  description : Json

/-- {...place, description}. -/
def withDescription (p : Place) (d : Json) : Reco :=
  { name := p.name, address := p.address, distance := p.distance,
    rating := p.rating, price := p.price, hours := p.hours,
    category := p.category, description := d }

/-- d.name.toLowerCase() === place.name.toLowerCase() ||
place.name.toLowerCase().includes(d.name.toLowerCase()) ||
d.name.toLowerCase().includes(place.name.toLowerCase()). -/
def nameMatches (dName pName : String) : Bool :=
  lowerStr dName = lowerStr pName ||
  stringIncludes (lowerStr pName) (lowerStr dName) ||
  stringIncludes (lowerStr dName) (lowerStr pName)

/-- descriptions.find(...) in enhanceWithGemini.  Evaluating the
predicate on an element that is not an object with a string name throws
a TypeError (d.name is undefined, or toLowerCase is not a function);
the error propagates to the surrounding try. -/
def findAiData (pName : String) : List Json → Except Unit (Option Json)
  | [] => .ok none
  | d :: rest =>
    match d with
    | .obj fields =>
      match lookupField fields "name" with
      | some (.str s) =>
        if nameMatches s pName then .ok (some d) else findAiData pName rest
      | _ => .error ()
    | _ => .error ()

/-- The default description used when no generated description matches a
place: "A great {mood} spot worth checking out.". -/
def unmatchedDesc (mood : String) : Json :=
  .str ("A great " ++ mood ++ " spot worth checking out.")

/-- The catch-path description "A great {mood} spot in {location}.". -/
def genericDesc (mood location : String) : Json :=
  .str ("A great " ++ mood ++ " spot in " ++ location ++ ".")

/-- The non-success-path description "A popular {mood} destination.". -/
def popularDesc (mood : String) : Json :=
  .str ("A popular " ++ mood ++ " destination.")

/-- places.map(place => ({...place, description: aiData?.description ||
default})): sequential, so the first predicate TypeError aborts the whole
map into the catch. -/
def mergeDescriptions (mood : String) (descs : List Json) : List Place → Except Unit (List Reco)
  | [] => .ok []
  | p :: ps =>
    match findAiData p.name descs with
    | .error e => .error e
    | .ok ai =>
      let dval : Option Json :=
        match ai with
        | some (Json.obj f) => lookupField f "description"
        | _ => none
      let desc : Json :=
        match dval with
        | some v => if truthyJson v then v else unmatchedDesc mood
        | none => unmatchedDesc mood
      match mergeDescriptions mood descs ps with
      | .error e => .error e
      | .ok rest => .ok (withDescription p desc :: rest)

/-- enhanceWithGemini: attach AI descriptions to Foursquare places.  All
failure modes fall back to mapping a templated description over the
places; a thrown JSON.parse or find error lands in the catch with the
genericDesc text.  The parse branch for a non-array value cannot occur
(the extracted span starts with an opening bracket) and is mapped to the
catch path. -/
def enhanceWithGemini (hasGeminiKey : Bool) (o : GeminiOutcome)
    (places : List Place) (mood location : String) : List Reco :=
  if hasGeminiKey = false then
    places.map (fun p => withDescription p (genericDesc mood location))
  else
    match o with
    | .exn => places.map (fun p => withDescription p (genericDesc mood location))
    | .resp status text =>
      if !isOkStatus status then
        places.map (fun p => withDescription p (popularDesc mood))
      else
        match text with
        | none => places.map (fun p => withDescription p (popularDesc mood))
        | some t =>
          if t = "" then places.map (fun p => withDescription p (popularDesc mood))
          else
            match extractArr t with
            | none => places.map (fun p => withDescription p (popularDesc mood))
            | some m =>
              match parseJson m with
              | some (.arr descs) =>
                match mergeDescriptions mood descs places with
                | .ok l => l
                | .error _ => places.map (fun p => withDescription p (genericDesc mood location))
              | some _ => places.map (fun p => withDescription p (genericDesc mood location))
              | none => places.map (fun p => withDescription p (genericDesc mood location))

/-- The recommendations field of the response body: a parsed/mock JSON
value on the generation path, or enhanced places on the Foursquare path. -/
inductive Recs where
  | fromJson : Json → Recs
  | fromPlaces : List Reco → Recs

/-- Number of entries in the recommendations sequence. -/
def Recs.entryCount : Recs → Nat
  | .fromJson (Json.arr l) => l.length
  | .fromJson _ => 0
  | .fromPlaces l => l.length

/-- The 200 response body of the newer handler. -/
structure Envelope where
  recommendations : Recs
  source : String
  rateLimitReached : Bool
  message : Option String

/-- The degraded-service message attached on the rate-limited path. -/
def rateLimitMessage : String :=
  "Live data temporarily unavailable. Showing AI-generated recommendations."

/-- A handler response: the empty preflight 200, an error status with its
message, or a 200 with the envelope. -/
inductive HResp where
  | emptyOk : HResp
  | err : Nat → String → HResp
  | ok : Envelope → HResp

/-- The HTTP status of a handler response. -/
def HResp.status : HResp → Nat
  | .emptyOk => 200
  | .err s _ => s
  | .ok _ => 200

/-- The parsed request body: malformed (JSON.parse of event.body throws,
landing in the 500 catch) or destructured fields.  A missing location or
mood destructures to undefined, modelled by the empty string, which the
!location || !mood guard also rejects. -/
inductive BodyVal where
  | malformed : BodyVal
  | fields : String → String → Nat → Nat → BodyVal

/-- Which provider credentials are configured (truthy in process.env). -/
structure EnvConfig where
  hasFoursquareKey : Bool
  hasGeminiKey : Bool

/-- The behaviour of the external providers for one request: the search
outcome, the per-index detail outcomes, and the Gemini outcome for each
of the two possible calls. -/
structure Behaviour where
  search : SearchOutcome
  details : Nat → DetailOutcome
  geminiGenerate : GeminiOutcome
  geminiEnhance : GeminiOutcome

/-- The newer exports.handler: CORS preflight, method gating, body
parsing, then the three-way assembly over Places Lookup and the two
Gemini entry points. -/
def handler (cfg : EnvConfig) (b : Behaviour) (today : String)
    (httpMethod : String) (body : BodyVal) : HResp :=
  if httpMethod = "OPTIONS" then .emptyOk
  else if httpMethod ≠ "POST" then .err 405 "Method not allowed"
  else
    match body with
    | .malformed => .err 500 "Failed to get recommendations"
    | .fields location mood timeAvailable maxDistance =>
      if location = "" ∨ mood = "" then .err 400 "Location and mood are required"
      else if cfg.hasFoursquareKey then
        let fr := getPlacesFromFoursquare location mood maxDistance today b.search b.details
        if fr.rateLimited then
          .ok { recommendations := .fromJson (getGeminiRecommendations cfg.hasGeminiKey
                  b.geminiGenerate location mood timeAvailable maxDistance),
                source := "ai", rateLimitReached := true,
                message := some rateLimitMessage }
        else if fr.places.length > 0 then
          .ok { recommendations := .fromPlaces (enhanceWithGemini cfg.hasGeminiKey
                  b.geminiEnhance fr.places mood location),
                source := "foursquare", rateLimitReached := false, message := none }
        else
          .ok { recommendations := .fromJson (getGeminiRecommendations cfg.hasGeminiKey
                  b.geminiGenerate location mood timeAvailable maxDistance),
                source := "ai", rateLimitReached := false, message := none }
      else
        .ok { recommendations := .fromJson (getGeminiRecommendations cfg.hasGeminiKey
                b.geminiGenerate location mood timeAvailable maxDistance),
              source := "ai", rateLimitReached := false, message := none }

/-- Does the string parse as a JSON array? -/
def isJsonArrayString (s : String) : Bool :=
  match parseJson s with
  | some (Json.arr _) => true
  | _ => false

/-- All substrings of s (by start and end position) that are well-formed
JSON arrays.  This renders the specification wording "the text contains
exactly one well-formed JSON array" as this list having one element; it
is a reading of the spec, not a translation of the source. -/
def arraySubstrings (s : String) : List String :=
  (List.range (s.length + 1)).flatMap (fun i =>
    (List.range (s.length + 1)).filterMap (fun j =>
      if i < j then
        let sub := String.mk ((s.data.drop i).take (j - i))
        if isJsonArrayString sub then some sub else none
      else none))

/-- The list of truthy location fields in the specification wording: the
non-empty fields among street address, locality, region and postcode.
This is the spec-side description to compare with addressParts. -/
def specNonemptyFields (l : LocObj) : List String :=
  ([l.address, l.locality, l.region, l.postcode].filterMap id).filter (fun s => s ≠ "")

/-- Re-embedding of a formatted address into a location whose only field
is the street address, used to state idempotence of formatAddress. -/
def wrapAddress (o : Option String) : Option LocObj :=
  some { address := o, locality := none, region := none, postcode := none }

/-- The generate-from-scratch provider outcome delivered usable text whose
extracted bracket span parses to the empty JSON array — the one provider
behaviour that makes the handler return a 200 with an empty
recommendations list. -/
def genParsedEmptyArr (o : GeminiOutcome) : Bool :=
  match o with
  | .resp status (some t) =>
    isOkStatus status && !(t = "") &&
      (match extractArr t with
       | some m =>
         (match parseJson m with
          | some (Json.arr []) => true
          | _ => false)
       | none => false)
  | _ => false

example : parseJson "[]" = some (.arr []) := rfl
example : parseJson " [1, true] " = some (.arr [.num "1", .bool true]) := rfl
example : parseJson "[1]]" = none := rfl
example : extractArr "ab[true]c" = some "[true]" := by decide
example : extractArr "ab[true]" = some "[true]" := by decide
example : extractArr "no brackets" = none := by decide
example : extractArr "] [" = none := by decide
example : extractArr "[1] x []" = some "[1] x []" := by decide

/-- Every mock table lookup returns a 2-entry list. -/
theorem mock_length (mood : String) : (getMockRecommendations mood).length = 2 := by
  unfold getMockRecommendations
  split_ifs <;> rfl

/-- C8: the Mock Recommendation Table is a total pure function (it is a
Lean function with no effects and no error case): every lookup returns a
list of exactly 2 entries, each supported mood maps to its fixed literal
list, and an unsupported mood string returns the quick-bite list. -/
theorem c8_mock_table (mood : String) :
    (getMockRecommendations mood).length = 2 ∧
    (mood = "coffee" → getMockRecommendations mood = mockCoffee) ∧
    (mood = "quick-bite" → getMockRecommendations mood = mockQuickBite) ∧
    (mood = "healthy" → getMockRecommendations mood = mockHealthy) ∧
    (mood = "comfort" → getMockRecommendations mood = mockComfort) ∧
    (mood = "date-night" → getMockRecommendations mood = mockDateNight) ∧
    (mood = "adventure" → getMockRecommendations mood = mockAdventure) ∧
    (mood ∉ mockMoods → getMockRecommendations mood = mockQuickBite) := by
  refine ⟨mock_length mood, ?_, ?_, ?_, ?_, ?_, ?_, ?_⟩
  · intro h; subst h; rfl
  · intro h; subst h; rfl
  · intro h; subst h; rfl
  · intro h; subst h; rfl
  · intro h; subst h; rfl
  · intro h; subst h; rfl
  · intro h
    unfold getMockRecommendations
    split_ifs with h1 h2 h3 h4 h5 h6 <;>
      first
        | rfl
        | (exact absurd (by simp [mockMoods, *]) h)

/-- C8 witness: a supported mood gives its fixed 2-entry list; an
unsupported mood gives the quick-bite list. -/
theorem c8_mock_table_witness :
    (getMockRecommendations "coffee").length = 2 ∧
    getMockRecommendations "coffee" = mockCoffee ∧
    getMockRecommendations "sushi" = mockQuickBite :=
  ⟨(c8_mock_table "coffee").1, (c8_mock_table "coffee").2.1 rfl,
   (c8_mock_table "sushi").2.2.2.2.2.2.2 (by decide)⟩

/-- C10: in the newer revision, Places Lookup does not depend on
maxDistance: for any two invocations differing only in maxDistance, the
search URL issued and the result returned are identical (the parameter
is accepted but never used in the URL template). -/
theorem c10_maxdistance_ignored (location mood : String) (md1 md2 : Nat) (today : String)
    (search : SearchOutcome) (details : Nat → DetailOutcome) :
    searchUrl location mood md1 = searchUrl location mood md2 ∧
    getPlacesFromFoursquare location mood md1 today search details =
      getPlacesFromFoursquare location mood md2 today search details :=
  ⟨rfl, rfl⟩

/-- C4 as amended: the search status classification of Places Lookup.
429 and 402 yield the rate-limited empty result; any other non-success
status yields the silent empty result; an exception in the search phase
(anything the outer try/catch sees) also yields the silent empty result.
An exception inside a single per-place detail fetch is caught by the
inner catch and degrades only that entry (see the counterexample), and
the component is a total function, never propagating an exception. -/
theorem c4_status_classification (location mood : String) (md : Nat) (today : String)
    (results : List SearchPlace) (details : Nat → DetailOutcome) (s : Nat) :
    getPlacesFromFoursquare location mood md today (.resp 429 results) details =
      ⟨[], true⟩ ∧
    getPlacesFromFoursquare location mood md today (.resp 402 results) details =
      ⟨[], true⟩ ∧
    (isOkStatus s = false → s ≠ 429 → s ≠ 402 →
      getPlacesFromFoursquare location mood md today (.resp s results) details =
        ⟨[], false⟩) ∧
    getPlacesFromFoursquare location mood md today .exn details = ⟨[], false⟩ := by
  refine ⟨rfl, rfl, ?_, rfl⟩
  intro h1 h2 h3
  simp [getPlacesFromFoursquare, h1, h2, h3]

/-- C4 witness: a 500 search response and a 429 search response. -/
theorem c4_status_classification_witness :
    getPlacesFromFoursquare "Seattle, WA" "coffee" 1000 "Monday" (.resp 500 [])
      (fun _ => .exn) = ⟨[], false⟩ ∧
    getPlacesFromFoursquare "Seattle, WA" "coffee" 1000 "Monday" (.resp 429 [])
      (fun _ => .exn) = ⟨[], true⟩ :=
  ⟨(c4_status_classification "Seattle, WA" "coffee" 1000 "Monday" [] (fun _ => .exn)
      500).2.2.1 (by decide) (by decide) (by decide),
   (c4_status_classification "Seattle, WA" "coffee" 1000 "Monday" [] (fun _ => .exn)
      500).1⟩

/-- C4 counterexample: an exception raised inside the component during a
per-place detail fetch is caught but NOT converted to
{places: [], rateLimited: false} — the entry degrades to the coarse
search fields instead, so the claim's "any exception raised inside the
component is converted to {places: [], rateLimited: false}" fails on
this input (search succeeds with one result, every detail fetch throws). -/
theorem c4_counterexample :
    getPlacesFromFoursquare "Seattle, WA" "coffee" 1000 "Monday"
        (.resp 200 [⟨"id1", "Cafe X", none, none⟩]) (fun _ => DetailOutcome.exn) =
      ⟨[coarsePlace ⟨"id1", "Cafe X", none, none⟩], false⟩ ∧
    (⟨[coarsePlace ⟨"id1", "Cafe X", none, none⟩], false⟩ : FoursquareResult) ≠
      ⟨[], false⟩ :=
  ⟨rfl, by decide⟩

/-- A substring of the right part of an append is a substring of the whole. -/
theorem hasSubList_append_right (n b : List Char) (h : hasSubList n b = true) :
    ∀ a : List Char, hasSubList n (a ++ b) = true := by
  intro a
  induction a with
  | nil => simpa using h
  | cons c a ih => simp [hasSubList, ih]

/-- C9: for every successful search response with n results, Places
Lookup returns exactly min(n, 3) places — results beyond the first 3 are
dropped entirely — even though the search URL asks the provider for up
to 5 results. -/
theorem c9_slice_three (location mood : String) (md : Nat) (today : String)
    (s : Nat) (results : List SearchPlace) (details : Nat → DetailOutcome)
    (hok : isOkStatus s = true) :
    (getPlacesFromFoursquare location mood md today (.resp s results)
        details).places.length = min results.length 3 ∧
    stringIncludes (searchUrl location mood md) "limit=5" = true := by
  constructor
  · have hrange : 200 ≤ s ∧ s < 300 := by
      simpa [isOkStatus, Bool.and_eq_true, decide_eq_true_eq] using hok
    have h429 : s ≠ 429 := by omega
    have h402 : s ≠ 402 := by omega
    simp [getPlacesFromFoursquare, h429, h402, hok, List.length_mapIdx,
      List.length_take, Nat.min_comm]
  · show hasSubList ("limit=5").data (searchUrl location mood md).data = true
    unfold searchUrl
    rw [String.data_append]
    exact hasSubList_append_right _ _ (by decide) _

/-- C9 witness: one search result, success status 200. -/
theorem c9_slice_three_witness :
    (getPlacesFromFoursquare "Seattle, WA" "coffee" 1000 "Monday"
        (.resp 200 [⟨"id1", "Cafe X", none, none⟩])
        (fun _ => DetailOutcome.exn)).places.length = min 1 3 ∧
    stringIncludes (searchUrl "Seattle, WA" "coffee" 1000) "limit=5" = true :=
  c9_slice_three "Seattle, WA" "coffee" 1000 "Monday" 200
    [⟨"id1", "Cafe X", none, none⟩] (fun _ => DetailOutcome.exn) (by decide)

/-- addressParts builds exactly the list of non-empty fields among
street address, locality, region and postcode, in that order. -/
theorem addressParts_eq (l : LocObj) : addressParts l = specNonemptyFields l := by
  rcases l with ⟨a, lo, re, po⟩
  unfold addressParts specNonemptyFields
  cases a <;> cases lo <;> cases re <;> cases po <;>
    simp [List.filterMap_cons] <;> split_ifs <;> simp_all

/-- A comma join of non-empty strings is empty only for the empty list. -/
theorem joinComma_ne_empty :
    ∀ ps : List String, (∀ s ∈ ps, s ≠ "") → ps ≠ [] → joinComma ps ≠ ""
  | [], _, hne => absurd rfl hne
  | [s], h, _ => by simpa [joinComma] using h s (by simp)
  | s :: r :: t, _, _ => by
    intro heq
    have h2 := congrArg String.length heq
    rw [show joinComma (s :: r :: t) = s ++ ", " ++ joinComma (r :: t) from rfl] at h2
    rw [String.length_append, String.length_append] at h2
    have : (", ").length = 2 := rfl
    have : ("").length = 0 := rfl
    omega

/-- C7: formatAddress joins the non-empty fields among street address,
locality, region and postcode with ", "; a location with no truthy
sub-fields (and a missing location) yields null, never the empty string;
and re-formatting its own output leaves it unchanged. -/
theorem c7_format_address (l : LocObj) :
    formatAddress (some l) =
      (if specNonemptyFields l = [] then none
       else some (joinComma (specNonemptyFields l))) ∧
    formatAddress none = none ∧
    formatAddress (some l) ≠ some "" ∧
    formatAddress (wrapAddress (formatAddress (some l))) = formatAddress (some l) := by
  have hmem : ∀ s ∈ specNonemptyFields l, s ≠ "" := by
    intro s hs
    have := List.mem_filter.mp hs
    simpa using this.2
  have hmain : formatAddress (some l) =
      (if specNonemptyFields l = [] then none
       else some (joinComma (specNonemptyFields l))) := by
    unfold formatAddress
    dsimp only
    rw [addressParts_eq]
    by_cases hnil : specNonemptyFields l = []
    · simp [hnil, joinComma]
    · rw [if_neg (joinComma_ne_empty _ hmem hnil), if_neg hnil]
  refine ⟨hmain, rfl, ?_, ?_⟩
  · rw [hmain]
    by_cases hnil : specNonemptyFields l = []
    · simp [hnil]
    · rw [if_neg hnil]
      intro hcon
      exact joinComma_ne_empty _ hmem hnil (Option.some.inj hcon)
  · rw [hmain]
    by_cases hnil : specNonemptyFields l = []
    · simp [hnil, wrapAddress, formatAddress, addressParts, joinComma]
    · rw [if_neg hnil]
      have hjne : joinComma (specNonemptyFields l) ≠ "" :=
        joinComma_ne_empty _ hmem hnil
      simp [wrapAddress, formatAddress, addressParts, hjne, joinComma]

/-- C7 witness: a concrete two-field location. -/
theorem c7_format_address_witness :
    formatAddress (some ⟨some "1 Main St", some "Seattle", none, none⟩) =
      (if specNonemptyFields ⟨some "1 Main St", some "Seattle", none, none⟩ = [] then none
       else some (joinComma
         (specNonemptyFields ⟨some "1 Main St", some "Seattle", none, none⟩))) ∧
    formatAddress none = none ∧
    formatAddress (some ⟨some "1 Main St", some "Seattle", none, none⟩) ≠ some "" ∧
    formatAddress (wrapAddress (formatAddress
        (some ⟨some "1 Main St", some "Seattle", none, none⟩))) =
      formatAddress (some ⟨some "1 Main St", some "Seattle", none, none⟩) :=
  c7_format_address ⟨some "1 Main St", some "Seattle", none, none⟩

/-- C6 as amended: for every hours value that is present AND has a truthy
display string, if the weekly schedule contains an entry for today's
weekday then formatHours renders "Open {open}-{close}" for the first such
entry, and otherwise it falls back to "Open now"/"Check hours" according
to the open_now flag.  (The claim as stated omits the display guard; see
the counterexample.) -/
theorem c6_format_hours (today : String) (hv : HoursVal)
    (hdisp : truthyStr hv.display = true) :
    ((∃ e ∈ hv.regular.getD [], weekdayNames.get? e.day = some today) →
      ∃ h, todaysEntry today hv = some h ∧ weekdayNames.get? h.day = some today ∧
        formatHours today (some hv) =
          some ("Open " ++ h.openTime ++ "-" ++ h.closeTime)) ∧
    (todaysEntry today hv = none →
      formatHours today (some hv) =
        (if hv.openNow = some true then some "Open now" else some "Check hours")) := by
  constructor
  · rintro ⟨e, he, hp⟩
    cases hreg : hv.regular with
    | none => rw [hreg] at he; simp at he
    | some lst =>
      rw [hreg] at he
      simp only [Option.getD_some] at he
      have hsome : (lst.find?
          (fun h => weekdayNames.get? h.day = some today)).isSome = true := by
        rw [List.find?_isSome]
        exact ⟨e, he, by simpa using hp⟩
      obtain ⟨h, hfind⟩ := Option.isSome_iff_exists.mp hsome
      have hpe : weekdayNames.get? h.day = some today := by
        have := List.find?_some hfind
        simpa using this
      have htoday : todaysEntry today hv = some h := by
        unfold todaysEntry
        rw [hreg]
        exact hfind
      exact ⟨h, htoday, hpe, by simp [formatHours, hdisp, htoday]⟩
  · intro hnone
    simp [formatHours, hdisp, hnone]

/-- C6 witness: display present, Monday entry present. -/
theorem c6_format_hours_witness :
    ∃ h, todaysEntry "Monday"
        ⟨some "Mon 9:00-17:00", some [⟨1, "9:00", "17:00"⟩], some true⟩ = some h ∧
      weekdayNames.get? h.day = some "Monday" ∧
      formatHours "Monday"
          (some ⟨some "Mon 9:00-17:00", some [⟨1, "9:00", "17:00"⟩], some true⟩) =
        some ("Open " ++ h.openTime ++ "-" ++ h.closeTime) :=
  (c6_format_hours "Monday"
      ⟨some "Mon 9:00-17:00", some [⟨1, "9:00", "17:00"⟩], some true⟩ (by decide)).1
    ⟨⟨1, "9:00", "17:00"⟩, by simp, by decide⟩

/-- C6 counterexample: an hours value whose weekly schedule contains an
entry for today's weekday (Monday) but whose display field is absent.
The claim as stated demands "Open 9:00-17:00"; the code returns null. -/
theorem c6_counterexample :
    (∃ e ∈ (HoursVal.mk none (some [⟨1, "9:00", "17:00"⟩]) (some true)).regular.getD [],
        weekdayNames.get? e.day = some "Monday") ∧
    formatHours "Monday" (some ⟨none, some [⟨1, "9:00", "17:00"⟩], some true⟩) = none ∧
    formatHours "Monday" (some ⟨none, some [⟨1, "9:00", "17:00"⟩], some true⟩) ≠
      some ("Open " ++ "9:00" ++ "-" ++ "17:00") :=
  ⟨⟨⟨1, "9:00", "17:00"⟩, by simp, by decide⟩, rfl, by decide⟩

/-- C5 as amended: for every provider text response on the generation
path, if the greedy first-bracket-to-last-bracket span of the text
parses as a JSON array then the output is exactly that array; if there
is no bracket pair the output is the mock table entry for the mood; and
if the span is not valid JSON (the thrown SyntaxError lands in the
catch) the output is again the mock entry.  The path is a total
function: no error reaches the caller.  (The claim's antecedent "the
text contains exactly one well-formed JSON array" is weaker than "the
greedy span parses"; see the counterexample.) -/
theorem c5_generated_text_parsing (location mood : String)
    (timeAvailable maxDistance s : Nat) (t : String)
    (hok : isOkStatus s = true) :
    (∀ m xs, extractArr t = some m → parseJson m = some (.arr xs) →
      getGeminiRecommendations true (.resp s (some t)) location mood timeAvailable
        maxDistance = .arr xs) ∧
    (extractArr t = none →
      getGeminiRecommendations true (.resp s (some t)) location mood timeAvailable
        maxDistance = .arr (getMockRecommendations mood)) ∧
    (∀ m, extractArr t = some m → parseJson m = none →
      getGeminiRecommendations true (.resp s (some t)) location mood timeAvailable
        maxDistance = .arr (getMockRecommendations mood)) := by
  by_cases ht : t = ""
  · subst ht
    refine ⟨?_, ?_, ?_⟩
    · intro m xs hm
      rw [show extractArr "" = none from rfl] at hm
      simp at hm
    · intro _
      simp [getGeminiRecommendations, hok]
    · intro m hm
      rw [show extractArr "" = none from rfl] at hm
      simp at hm
  · refine ⟨?_, ?_, ?_⟩
    · intro m xs hm hp
      simp [getGeminiRecommendations, hok, ht, hm, hp]
    · intro hm
      simp [getGeminiRecommendations, hok, ht, hm]
    · intro m hm hp
      simp [getGeminiRecommendations, hok, ht, hm, hp]

/-- C5 witness: a text with one array in prose, and a text with no
bracket pair. -/
theorem c5_generated_text_parsing_witness :
    getGeminiRecommendations true (.resp 200 (some "ab[true]")) "Seattle, WA" "coffee"
      30 1000 = .arr [.bool true] ∧
    getGeminiRecommendations true (.resp 200 (some "no brackets")) "Seattle, WA" "coffee"
      30 1000 = .arr (getMockRecommendations "coffee") :=
  ⟨(c5_generated_text_parsing "Seattle, WA" "coffee" 30 1000 200 "ab[true]"
      (by decide)).1 "[true]" [.bool true] rfl rfl,
   (c5_generated_text_parsing "Seattle, WA" "coffee" 30 1000 200 "no brackets"
      (by decide)).2.1 rfl⟩

/-- C5 counterexample: the text "[1]]" contains exactly one well-formed
JSON array substring, namely "[1]", yet the greedy match extracts
"[1]]", JSON.parse throws, and the output is the mock table — not that
array.  So the claim as stated fails on this provider text. -/
theorem c5_counterexample :
    (arraySubstrings "[1]]").length = 1 ∧
    arraySubstrings "[1]]" = ["[1]"] ∧
    parseJson "[1]" = some (.arr [.num "1"]) ∧
    getGeminiRecommendations true (.resp 200 (some "[1]]")) "Seattle, WA" "coffee"
      30 1000 = .arr (getMockRecommendations "coffee") ∧
    Json.arr (getMockRecommendations "coffee") ≠ Json.arr [Json.num "1"] := by
  refine ⟨rfl, rfl, rfl, rfl, ?_⟩
  intro h
  injection h with h
  simp [getMockRecommendations, mockCoffee] at h

/-- Merging generated descriptions onto places preserves the list of
place names whenever it does not throw. -/
theorem mergeDescriptions_names (mood : String) (descs : List Json) :
    ∀ ps l, mergeDescriptions mood descs ps = .ok l →
      l.map Reco.name = ps.map Place.name := by
  intro ps
  induction ps with
  | nil =>
    intro l h
    simp [mergeDescriptions] at h
    subst h
    rfl
  | cons p ps ih =>
    intro l h
    unfold mergeDescriptions at h
    cases hf : findAiData p.name descs with
    | error e => rw [hf] at h; simp at h
    | ok ai =>
      rw [hf] at h
      cases hm : mergeDescriptions mood descs ps with
      | error e => rw [hm] at h; simp at h
      | ok rest =>
        rw [hm] at h
        simp only [Except.ok.injEq] at h
        subst h
        simp [withDescription, ih rest hm]

/-- Every branch of enhanceWithGemini returns the input places with a
description attached, preserving names and order. -/
theorem enhance_names (k : Bool) (o : GeminiOutcome) (places : List Place)
    (mood location : String) :
    (enhanceWithGemini k o places mood location).map Reco.name =
      places.map Place.name := by
  unfold enhanceWithGemini
  repeat' split
  all_goals
    first
      | (rw [List.map_map]; rfl)
      | (exact mergeDescriptions_names _ _ _ _ (by assumption))

/-- enhanceWithGemini returns exactly one recommendation per input place. -/
theorem enhance_length (k : Bool) (o : GeminiOutcome) (places : List Place)
    (mood location : String) :
    (enhanceWithGemini k o places mood location).length = places.length := by
  have h := congrArg List.length (enhance_names k o places mood location)
  simpa using h

/-- C2: when the places credential is configured and Places Lookup comes
back rate limited, the envelope has rateLimitReached true, source "ai",
the non-null degraded-service message, and its recommendations are the
generate-from-scratch output for the same request. -/
theorem c2_rate_limited_path (cfg : EnvConfig) (b : Behaviour)
    (today location mood : String) (timeAvailable maxDistance : Nat)
    (hkey : cfg.hasFoursquareKey = true)
    (hloc : location ≠ "") (hmood : mood ≠ "")
    (hrl : (getPlacesFromFoursquare location mood maxDistance today b.search
        b.details).rateLimited = true) :
    handler cfg b today "POST" (.fields location mood timeAvailable maxDistance) =
      .ok { recommendations := .fromJson (getGeminiRecommendations cfg.hasGeminiKey
              b.geminiGenerate location mood timeAvailable maxDistance),
            source := "ai", rateLimitReached := true,
            message := some rateLimitMessage } ∧
    some rateLimitMessage ≠ (none : Option String) := by
  refine ⟨?_, by simp⟩
  simp [handler, hkey, hloc, hmood, hrl]

/-- C2 witness: a 429 search response with the credential configured. -/
theorem c2_rate_limited_path_witness :
    handler ⟨true, false⟩ ⟨.resp 429 [], fun _ => .exn, .exn, .exn⟩ "Monday" "POST"
        (.fields "Seattle, WA" "coffee" 30 1000) =
      .ok { recommendations := .fromJson (getGeminiRecommendations false .exn
              "Seattle, WA" "coffee" 30 1000),
            source := "ai", rateLimitReached := true,
            message := some rateLimitMessage } ∧
    some rateLimitMessage ≠ (none : Option String) :=
  c2_rate_limited_path ⟨true, false⟩ ⟨.resp 429 [], fun _ => .exn, .exn, .exn⟩
    "Monday" "Seattle, WA" "coffee" 30 1000 rfl (by decide) (by decide) rfl

/-- C3: when Places Lookup returns a non-empty, not rate-limited place
list, the envelope source is "foursquare" and every returned
recommendation bears the name of one of the candidate places. -/
theorem c3_foursquare_path (cfg : EnvConfig) (b : Behaviour)
    (today location mood : String) (timeAvailable maxDistance : Nat)
    (hkey : cfg.hasFoursquareKey = true)
    (hloc : location ≠ "") (hmood : mood ≠ "")
    (hrl : (getPlacesFromFoursquare location mood maxDistance today b.search
        b.details).rateLimited = false)
    (hne : (getPlacesFromFoursquare location mood maxDistance today b.search
        b.details).places ≠ []) :
    ∃ l, handler cfg b today "POST" (.fields location mood timeAvailable maxDistance) =
        .ok { recommendations := .fromPlaces l, source := "foursquare",
              rateLimitReached := false, message := none } ∧
      ∀ r ∈ l, r.name ∈ (getPlacesFromFoursquare location mood maxDistance today
        b.search b.details).places.map Place.name := by
  refine ⟨enhanceWithGemini cfg.hasGeminiKey b.geminiEnhance
    (getPlacesFromFoursquare location mood maxDistance today b.search b.details).places
    mood location, ?_, ?_⟩
  · have hlen : 0 < (getPlacesFromFoursquare location mood maxDistance today b.search
        b.details).places.length := List.length_pos.mpr hne
    simp [handler, hkey, hloc, hmood, hrl, hlen]
  · intro r hr
    rw [← enhance_names cfg.hasGeminiKey b.geminiEnhance _ mood location]
    exact List.mem_map_of_mem Reco.name hr

/-- C3 witness: one search result whose detail fetch throws, no Gemini
credential. -/
theorem c3_foursquare_path_witness :
    ∃ l, handler ⟨true, false⟩
          ⟨.resp 200 [⟨"id1", "Cafe X", none, some 100⟩], fun _ => .exn, .exn, .exn⟩
          "Monday" "POST" (.fields "Seattle, WA" "coffee" 30 1000) =
        .ok { recommendations := .fromPlaces l, source := "foursquare",
              rateLimitReached := false, message := none } ∧
      ∀ r ∈ l, r.name ∈ (getPlacesFromFoursquare "Seattle, WA" "coffee" 1000 "Monday"
        (.resp 200 [⟨"id1", "Cafe X", none, some 100⟩])
        (fun _ => .exn)).places.map Place.name :=
  c3_foursquare_path ⟨true, false⟩
    ⟨.resp 200 [⟨"id1", "Cafe X", none, some 100⟩], fun _ => .exn, .exn, .exn⟩
    "Monday" "Seattle, WA" "coffee" 30 1000 rfl (by decide) (by decide) rfl
    (by decide)

/-- fromFirstBracket returns a suffix starting with an opening bracket. -/
theorem fromFirstBracket_head :
    ∀ cs m : List Char, fromFirstBracket cs = some m → ∃ r, m = '[' :: r := by
  intro cs
  induction cs with
  | nil => intro m h; simp [fromFirstBracket] at h
  | cons c cs ih =>
    intro m h
    by_cases hc : c = '['
    · subst hc
      simp [fromFirstBracket] at h
      exact ⟨cs, h.symm⟩
    · simp [fromFirstBracket, hc] at h
      exact ih m h

/-- dropUntilClose returns a suffix of its input starting with a closing
bracket. -/
theorem dropUntilClose_shape :
    ∀ cs m : List Char, dropUntilClose cs = some m →
      (∃ p, cs = p ++ m) ∧ ∃ r, m = ']' :: r := by
  intro cs
  induction cs with
  | nil => intro m h; simp [dropUntilClose] at h
  | cons c cs ih =>
    intro m h
    by_cases hc : c = ']'
    · subst hc
      simp [dropUntilClose] at h
      exact ⟨⟨[], by simp [h]⟩, ⟨cs, h.symm⟩⟩
    · simp [dropUntilClose, hc] at h
      obtain ⟨⟨p, hp⟩, hr⟩ := ih m h
      exact ⟨⟨c :: p, by simp [hp]⟩, hr⟩

/-- The span matched by the bracket regular expression starts with an
opening bracket. -/
theorem extractList_head (cs m : List Char) (h : extractList cs = some m) :
    ∃ r, m = '[' :: r := by
  unfold extractList at h
  cases hf : fromFirstBracket cs with
  | none => rw [hf] at h; simp at h
  | some suf =>
    rw [hf] at h
    dsimp only at h
    cases hd : dropUntilClose suf.reverse with
    | none => rw [hd] at h; simp at h
    | some revSpan =>
      rw [hd] at h
      simp only [Option.some.injEq] at h
      obtain ⟨st, hsuf⟩ := fromFirstBracket_head cs suf hf
      obtain ⟨⟨p, hp⟩, ⟨r, hr⟩⟩ := dropUntilClose_shape suf.reverse revSpan hd
      have hsuf2 : suf = revSpan.reverse ++ p.reverse := by
        have h2 := congrArg List.reverse hp
        simpa [List.reverse_append] using h2
      cases hrev : revSpan.reverse with
      | nil =>
        rw [hr] at hrev
        simp at hrev
      | cons a as =>
        rw [hrev] at hsuf2
        rw [hsuf] at hsuf2
        have ha : a = '[' := by
          have := hsuf2
          simp at this
          exact this.1.symm
        refine ⟨as, ?_⟩
        rw [← h, hrev, ha]

/-- A parse of input beginning with an opening bracket can only deliver
an array value. -/
theorem parseVal_bracket (fuel : Nat) (rest : List Char) (v : Json) (r : List Char)
    (h : parseVal fuel ('[' :: rest) = some (v, r)) : ∃ xs, v = Json.arr xs := by
  cases fuel with
  | zero => simp [parseVal] at h
  | succ f =>
    unfold parseVal at h
    rw [show skipWs ('[' :: rest) = '[' :: rest from rfl] at h
    simp only [↓reduceIte] at h
    split at h
    · simp only [Option.some.injEq, Prod.mk.injEq] at h
      exact ⟨[], h.1.symm⟩
    · cases hpi : parseItems f (skipWs rest) with
      | none => rw [hpi] at h; simp at h
      | some pr =>
        rw [hpi] at h
        simp only [Option.map_some', Option.some.injEq] at h
        injection h with h1 h2
        exact ⟨pr.1, h1.symm⟩

/-- When the generation path parses the extracted span successfully, the
value is a JSON array. -/
theorem parseJson_extract_arr (t m : String) (v : Json)
    (hm : extractArr t = some m) (hp : parseJson m = some v) :
    ∃ xs, v = Json.arr xs := by
  unfold extractArr at hm
  cases he : extractList t.data with
  | none => rw [he] at hm; simp at hm
  | some span =>
    rw [he] at hm
    simp only [Option.map_some', Option.some.injEq] at hm
    obtain ⟨r, hr⟩ := extractList_head t.data span he
    have hdata : m.data = '[' :: r := by
      rw [← hm, hr]
    unfold parseJson at hp
    cases hpv : parseVal (2 * m.length + 2) m.data with
    | none => rw [hpv] at hp; simp at hp
    | some pr =>
      rw [hpv] at hp
      dsimp only at hp
      rw [hdata] at hpv
      obtain ⟨xs, hxs⟩ := parseVal_bracket _ _ pr.1 pr.2 hpv
      split at hp
      · simp only [Option.some.injEq] at hp
        exact ⟨xs, by rw [← hp, hxs]⟩
      · exact Option.noConfusion hp

/-- Unless the provider outcome parses to the empty JSON array, the
generate-from-scratch output has at least one entry (the mock branches
always have two). -/
theorem gemini_entryCount_pos (k : Bool) (o : GeminiOutcome) (location mood : String)
    (ta md : Nat) (h : genParsedEmptyArr o = false) :
    0 < Recs.entryCount
      (.fromJson (getGeminiRecommendations k o location mood ta md)) := by
  have hmock : ∀ mood2 : String,
      0 < Recs.entryCount (.fromJson (.arr (getMockRecommendations mood2))) := by
    intro mood2
    simp [Recs.entryCount, mock_length]
  unfold getGeminiRecommendations
  split
  · exact hmock mood
  · cases o with
    | exn => exact hmock mood
    | resp s text =>
      dsimp only
      by_cases hok : isOkStatus s = true
      · rw [hok]
        simp only [Bool.not_true, Bool.false_eq_true, if_false]
        cases text with
        | none => exact hmock mood
        | some t =>
          dsimp only
          by_cases ht : t = ""
          · simp only [ht, if_pos rfl]
            exact hmock mood
          · rw [if_neg ht]
            cases hex : extractArr t with
            | none => exact hmock mood
            | some m =>
              dsimp only
              cases hpv : parseJson m with
              | none => exact hmock mood
              | some v =>
                dsimp only
                obtain ⟨xs, hxs⟩ := parseJson_extract_arr t m v hex hpv
                subst hxs
                cases xs with
                | nil =>
                  exfalso
                  simp [genParsedEmptyArr, hok, hex, hpv, ht] at h
                | cons a as => simp [Recs.entryCount]
      · have hok2 : isOkStatus s = false := by simpa using hok
        rw [hok2]
        exact hmock mood

/-- C1 as amended: every request that completes with HTTP 200 from the
recommendation handler has a non-empty recommendations sequence,
provided the generate-from-scratch provider call did not come back with
text whose extracted bracket span parses to the empty JSON array (the
one behaviour for which the handler returns 200 with an empty list; see
the counterexample). -/
theorem c1_success_nonempty (cfg : EnvConfig) (b : Behaviour)
    (today httpMethod : String) (body : BodyVal) (e : Envelope)
    (hok : handler cfg b today httpMethod body = .ok e)
    (hgen : genParsedEmptyArr b.geminiGenerate = false) :
    0 < Recs.entryCount e.recommendations := by
  unfold handler at hok
  split at hok
  · exact HResp.noConfusion hok
  · split at hok
    · exact HResp.noConfusion hok
    · split at hok
      · exact HResp.noConfusion hok
      · split at hok
        · exact HResp.noConfusion hok
        · split at hok
          · dsimp only at hok
            split at hok
            · injection hok with he
              subst he
              exact gemini_entryCount_pos _ _ _ _ _ _ hgen
            · split at hok
              · injection hok with he
                subst he
                rename_i hlen
                simpa [Recs.entryCount, enhance_length] using hlen
              · injection hok with he
                subst he
                exact gemini_entryCount_pos _ _ _ _ _ _ hgen
          · injection hok with he
            subst he
            exact gemini_entryCount_pos _ _ _ _ _ _ hgen

/-- C1 witness: no credentials at all, a coffee request: the handler
answers 200 with the 2-entry coffee mock list. -/
theorem c1_success_nonempty_witness :
    0 < Recs.entryCount (Recs.fromJson (.arr (getMockRecommendations "coffee"))) :=
  c1_success_nonempty ⟨false, false⟩ ⟨.exn, fun _ => .exn, .exn, .exn⟩ "Monday" "POST"
    (.fields "Seattle, WA" "coffee" 30 1000)
    ⟨.fromJson (.arr (getMockRecommendations "coffee")), "ai", false, none⟩ rfl rfl

/-- C1 counterexample: with a Gemini credential configured and the
provider returning the text "[]", the handler completes with HTTP 200
and an empty recommendations sequence, refuting the claim for this
provider behaviour. -/
theorem c1_counterexample :
    handler ⟨false, true⟩ ⟨.exn, fun _ => .exn, .resp 200 (some "[]"), .exn⟩ "Monday"
        "POST" (.fields "Seattle, WA" "coffee" 30 1000) =
      .ok { recommendations := .fromJson (.arr []), source := "ai",
            rateLimitReached := false, message := none } ∧
    Recs.entryCount (.fromJson (.arr [])) = 0 ∧
    HResp.status (.ok ⟨.fromJson (.arr []), "ai", false, none⟩) = 200 :=
  ⟨rfl, rfl, rfl⟩

end Nextbite
